import Mathlib

/-!
Verification development for the webhook relay service (`src/ci-cd.js`).

The service is a pair of Express HTTP handlers, `POST /add-repo` and
`POST /webhook/github`, sharing an in-memory `Map` from repository full
name to a signing secret, plus external calls to the GitHub and Jenkins
REST APIs.

Modelling choices:
* JSON values are modelled by the inductive type `Json` (numbers restricted
  to integer numerals, the only kind the claims exercise).  `Json.stringify`
  mirrors `JSON.stringify` on such values (compact output, standard escape
  sequences), `Json.parse` mirrors `JSON.parse` on the same fragment
  (whitespace-insensitive, duplicate keys overwrite, trailing garbage
  rejected).
* The HMAC-SHA256 primitive of the node `crypto` library is an external
  function; it is modelled as an explicit function parameter
  `hm : String → String → String` (secret → message → hex digest), and all
  theorems are stated for every such function.
* External I/O outcomes (the GitHub `createWebhook` call, the Jenkins job
  existence probe, the Jenkins build trigger) are inputs of the handler
  functions; the handlers record which external effects they issued.
* JavaScript property access `x.f` is modelled by `jsGet`, which returns
  `none` when the access throws a `TypeError` (access on `undefined` or
  `null`) and `some JsVal.undef` when the property is absent.
-/

/-- JSON values as produced by `JSON.parse`, restricted to integer numerals.
Object fields are kept in insertion order, as JavaScript objects do. -/
inductive Json where
  | null : Json
  | bool : Bool → Json
  | num : Int → Json
  | str : String → Json
  | arr : List Json → Json
  | obj : List (String × Json) → Json

/-- A JavaScript value reached by property access: either a proper JSON
value or `undefined`. -/
inductive JsVal where
  | undef : JsVal
  | jval : Json → JsVal

/-- Lowercase hex digit, as used by `JSON.stringify` control escapes. -/
def hexDigit (n : Nat) : Char :=
  if n < 10 then Char.ofNat (48 + n) else Char.ofNat (87 + (n - 10))

/-- Escape a single character the way `JSON.stringify` does inside string
literals. -/
def escChar (c : Char) : List Char :=
  if c = Char.ofNat 34 then [Char.ofNat 92, Char.ofNat 34]
  else if c = Char.ofNat 92 then [Char.ofNat 92, Char.ofNat 92]
  else if c = Char.ofNat 10 then [Char.ofNat 92, 'n']
  else if c = Char.ofNat 13 then [Char.ofNat 92, 'r']
  else if c = Char.ofNat 9 then [Char.ofNat 92, 't']
  else if c = Char.ofNat 8 then [Char.ofNat 92, 'b']
  else if c = Char.ofNat 12 then [Char.ofNat 92, 'f']
  else if c.toNat < 32 then
    [Char.ofNat 92, 'u', '0', '0', hexDigit (c.toNat / 16), hexDigit (c.toNat % 16)]
  else [c]

/-- `JSON.stringify` rendering of a string literal, quotes included. -/
def quoteStr (s : String) : String :=
  String.mk (Char.ofNat 34 :: (s.data.flatMap escChar) ++ [Char.ofNat 34])

mutual

/-- `JSON.stringify` on parsed JSON values: compact output, no added
whitespace, object keys in insertion order. -/
def Json.stringify : Json → String
  | Json.null => "null"
  | Json.bool true => "true"
  | Json.bool false => "false"
  | Json.num n => toString n
  | Json.str s => quoteStr s
  | Json.arr xs => "[" ++ stringifyList xs ++ "]"
  | Json.obj kvs => "\x7b" ++ stringifyObj kvs ++ "\x7d"

/-- Comma-separated rendering of array elements. -/
def stringifyList : List Json → String
  | [] => ""
  | [x] => Json.stringify x
  | x :: y :: xs => Json.stringify x ++ "," ++ stringifyList (y :: xs)

/-- Comma-separated rendering of object members. -/
def stringifyObj : List (String × Json) → String
  | [] => ""
  | [(k, v)] => quoteStr k ++ ":" ++ Json.stringify v
  | (k, v) :: m :: kvs => quoteStr k ++ ":" ++ Json.stringify v ++ "," ++ stringifyObj (m :: kvs)

end

/-- JSON insignificant whitespace characters. -/
def jsonWs (c : Char) : Bool :=
  c = ' ' || c = Char.ofNat 9 || c = Char.ofNat 10 || c = Char.ofNat 13

/-- Drop leading JSON whitespace. -/
def skipWs : List Char → List Char
  | [] => []
  | c :: cs => if jsonWs c then skipWs cs else c :: cs

/-- Parse the body of a JSON string literal after the opening quote.
Returns the decoded characters and the input after the closing quote.
Supports the escapes the claims exercise; rejects `\u` escapes and raw
control characters (outside the modelled fragment). -/
def parseStringBody : List Char → Option (List Char × List Char)
  | [] => none
  | c :: cs =>
    if c = Char.ofNat 34 then some ([], cs)
    else if c = Char.ofNat 92 then
      match cs with
      | [] => none
      | e :: cs' =>
        let dec : Option Char :=
          if e = Char.ofNat 34 then some (Char.ofNat 34)
          else if e = Char.ofNat 92 then some (Char.ofNat 92)
          else if e = '/' then some '/'
          else if e = 'n' then some (Char.ofNat 10)
          else if e = 't' then some (Char.ofNat 9)
          else if e = 'r' then some (Char.ofNat 13)
          else if e = 'b' then some (Char.ofNat 8)
          else if e = 'f' then some (Char.ofNat 12)
          else none
        match dec with
        | none => none
        | some ch =>
          match parseStringBody cs' with
          | none => none
          | some (body, rest) => some (ch :: body, rest)
    else if c.toNat < 32 then none
    else
      match parseStringBody cs with
      | none => none
      | some (body, rest) => some (c :: body, rest)

/-- Take the maximal run of decimal digits. -/
def takeDigits : List Char → (List Char × List Char)
  | [] => ([], [])
  | c :: cs =>
    if c.isDigit then
      let (d, r) := takeDigits cs
      (c :: d, r)
    else ([], c :: cs)

/-- Decimal digits to a natural number. -/
def digitsToNat (l : List Char) : Nat :=
  l.foldl (fun a c => a * 10 + (c.toNat - 48)) 0

/-- Parse an unsigned JSON integer numeral (no leading zeros, and not
followed by a fraction or exponent, which are outside the modelled
fragment). -/
def parseNatNum (s : List Char) : Option (Nat × List Char) :=
  let (d, r) := takeDigits s
  match d with
  | [] => none
  | c :: rest =>
    if c = '0' && rest ≠ [] then none
    else
      match r with
      | [] => some (digitsToNat d, [])
      | x :: _ =>
        if x = '.' || x = 'e' || x = 'E' then none
        else some (digitsToNat d, r)

/-- Overwrite-or-append on a JSON object member list, mirroring how
repeated keys behave during `JSON.parse` (last value wins, position of the
first occurrence kept). -/
def objSet (m : List (String × Json)) (k : String) (v : Json) : List (String × Json) :=
  match m with
  | [] => [(k, v)]
  | (k', v') :: rest => if k' = k then (k, v) :: rest else (k', v') :: objSet rest k v

mutual

/-- Fuel-indexed `JSON.parse` for a single value; returns the value and
the unconsumed input. -/
def parseVal : Nat → List Char → Option (Json × List Char)
  | 0, _ => none
  | Nat.succ fuel, s =>
    match skipWs s with
    | [] => none
    | c :: cs =>
      if c = 'n' then
        match cs with
        | 'u' :: 'l' :: 'l' :: r => some (Json.null, r)
        | _ => none
      else if c = 't' then
        match cs with
        | 'r' :: 'u' :: 'e' :: r => some (Json.bool true, r)
        | _ => none
      else if c = 'f' then
        match cs with
        | 'a' :: 'l' :: 's' :: 'e' :: r => some (Json.bool false, r)
        | _ => none
      else if c = Char.ofNat 34 then
        match parseStringBody cs with
        | none => none
        | some (body, rest) => some (Json.str (String.mk body), rest)
      else if c = '-' then
        match parseNatNum cs with
        | none => none
        | some (n, rest) => some (Json.num (-(n : Int)), rest)
      else if c.isDigit then
        match parseNatNum (c :: cs) with
        | none => none
        | some (n, rest) => some (Json.num (n : Int), rest)
      else if c = '[' then
        match skipWs cs with
        | ']' :: r => some (Json.arr [], r)
        | other => match parseElems fuel other with
          | none => none
          | some (vs, rest) => some (Json.arr vs, rest)
      else if c = Char.ofNat 123 then
        let r := skipWs cs
        if r.headD ' ' = Char.ofNat 125 then some (Json.obj [], r.tail)
        else match parseMembers fuel r with
          | none => none
          | some (ms, rest) =>
            some (Json.obj (ms.foldl (fun m kv => objSet m kv.1 kv.2) []), rest)
      else none

/-- Fuel-indexed parse of one-or-more array elements up to the closing
bracket. -/
def parseElems : Nat → List Char → Option (List Json × List Char)
  | 0, _ => none
  | Nat.succ fuel, s =>
    match parseVal fuel s with
    | none => none
    | some (v, r) =>
      match skipWs r with
      | ',' :: r' =>
        match parseElems fuel r' with
        | none => none
        | some (vs, rest) => some (v :: vs, rest)
      | ']' :: r' => some ([v], r')
      | _ => none

/-- Fuel-indexed parse of one-or-more object members up to the closing
brace, returned in textual order (duplicate resolution happens at the
object node). -/
def parseMembers : Nat → List Char → Option (List (String × Json) × List Char)
  | 0, _ => none
  | Nat.succ fuel, s =>
    match skipWs s with
    | q :: r =>
      if q = Char.ofNat 34 then
        match parseStringBody r with
        | none => none
        | some (kbody, r1) =>
          match skipWs r1 with
          | ':' :: r2 =>
            match parseVal fuel r2 with
            | none => none
            | some (v, r3) =>
              match skipWs r3 with
              | ',' :: r4 =>
                match parseMembers fuel r4 with
                | none => none
                | some (ms, rest) => some ((String.mk kbody, v) :: ms, rest)
              | x :: rest =>
                if x = Char.ofNat 125 then some ([(String.mk kbody, v)], rest) else none
              | [] => none
          | _ => none
      else none
    | [] => none

end

/-- `JSON.parse` on a whole input string: one value, optionally surrounded
by whitespace, nothing after it.  The fuel bound strictly exceeds the
number of recursive parsing steps any input of this length can cause. -/
def Json.parse (s : String) : Option Json :=
  match parseVal (4 * s.data.length + 8) s.data with
  | none => none
  | some (v, rest) => if skipWs rest = [] then some v else none

/-- The in-memory secret store `webhookSecrets` (a JavaScript `Map` from
repository full name to secret), modelled as an association list in
insertion order. -/
def Store := List (String × String)

/-- `Map.prototype.get`: the value stored under a key, if any. -/
def mapGet (m : Store) (k : String) : Option String :=
  match m with
  | [] => none
  | (k', v') :: rest => if k' = k then some v' else mapGet rest k

/-- `Map.prototype.set`: update the existing entry in place, or append a
new one. -/
def mapSet (m : Store) (k v : String) : Store :=
  match m with
  | [] => [(k, v)]
  | (k', v') :: rest => if k' = k then (k, v) :: rest else (k', v') :: mapSet rest k v

/-- First binding of a key in a JSON object member list. -/
def lookupObj (kvs : List (String × Json)) (k : String) : Option Json :=
  match kvs with
  | [] => none
  | (k', v') :: rest => if k' = k then some v' else lookupObj rest k

/-- JavaScript property access `x.f`: `none` models a thrown `TypeError`
(access on `undefined` or `null`); `some JsVal.undef` models an absent
property. -/
def jsGet (v : JsVal) (k : String) : Option JsVal :=
  match v with
  | JsVal.undef => none
  | JsVal.jval Json.null => none
  | JsVal.jval (Json.obj kvs) =>
    match lookupObj kvs k with
    | some j => some (JsVal.jval j)
    | none => some JsVal.undef
  | JsVal.jval _ => some JsVal.undef

/-- Remove the first occurrence of `pat` from `s` (the effect of
JavaScript `s.replace(pat, '')` with a string pattern). -/
def removeFirstOcc (pat : List Char) : List Char → List Char
  | [] => []
  | c :: rest =>
    if pat.isPrefixOf (c :: rest) then (c :: rest).drop pat.length
    else c :: removeFirstOcc pat rest

/-- JavaScript `s.replace(pat, '')` with a string pattern: only the first
occurrence is removed, wherever it appears. -/
def jsReplaceFirst (s pat : String) : String :=
  String.mk (removeFirstOcc pat.data s.data)

/-- JavaScript `String.prototype.split` with a one-character separator. -/
def splitChar (c : Char) : List Char → List (List Char)
  | [] => [[]]
  | x :: xs =>
    if x = c then [] :: splitChar c xs
    else
      match splitChar c xs with
      | [] => [[x]]
      | g :: gs => (x :: g) :: gs

/-- `repoFullName.split('/')[0]`, the destructured `repo_owner`. -/
def jsSplitOwner (s : String) : String :=
  String.mk ((splitChar '/' s.data).headD [])

/-- `repoFullName.split('/')[1]`, the destructured `repo_name`
(`undefined` when the full name contains no slash). -/
def jsSplitName (s : String) : JsVal :=
  match splitChar '/' s.data with
  | _ :: n :: _ => JsVal.jval (Json.str (String.mk n))
  | _ => JsVal.undef

/-- JavaScript truthiness of a request-body field that is either absent
or a string: `!x` holds exactly for an absent field and for the empty
string. -/
def isFalsy : Option String → Bool
  | none => true
  | some s => s = ""

/-- One parameterized Jenkins `buildWithParameters` request.
`commitSha = none` models a trigger without a `COMMIT_SHA` parameter (the
registrar's initial build); the webhook receiver always passes one. -/
structure BuildTrigger where
  job : String
  repoOwner : String
  repoName : JsVal
  branch : String
  userId : String
  commitSha : Option JsVal

/-- An inbound request to `POST /webhook/github` as the route handler
sees it: the two headers (absent headers are `none`), the body parsed by
`express.json()`, and the raw body bytes that were received on the wire
(which the handler itself never reads). -/
structure GithubRequest where
  signature : Option String
  event : Option String
  body : Json
  rawBody : String

/-- Outcome of one run of the webhook receiver: HTTP status, response
text, the Jenkins triggers issued, and the secret store afterwards. -/
structure WebhookResult where
  status : Nat
  response : String
  triggers : List BuildTrigger
  store : Store

/-- The `POST /webhook/github` handler (`src/ci-cd.js`, lines 126-200).
`hm` is the HMAC-SHA256 hex primitive (secret → message → digest);
`jenkinsOk` is whether the Jenkins `buildWithParameters` POST succeeds.
The handler never writes the store, so the result carries it unchanged. -/
def githubWebhook (store : Store) (hm : String → String → String)
    (jenkinsOk : Bool) (req : GithubRequest) : WebhookResult :=
  if req.event = some "push" then
    match jsGet (JsVal.jval req.body) "repository" with
    | none => ⟨500, "Internal error", [], store⟩
    | some repoV =>
      match jsGet repoV "full_name" with
      | none => ⟨500, "Internal error", [], store⟩
      | some fullNameV =>
        match jsGet (JsVal.jval req.body) "ref" with
        | some (JsVal.jval (Json.str refStr)) =>
          match jsGet (JsVal.jval req.body) "after" with
          | none => ⟨500, "Internal error", [], store⟩
          | some commitSha =>
            match fullNameV with
            | JsVal.jval (Json.str fullName) =>
              match mapGet store fullName with
              | some secret =>
                if secret = "" then ⟨404, "Repository not registered", [], store⟩
                else if req.signature = some ("sha256=" ++ hm secret (Json.stringify req.body)) then
                  let t : BuildTrigger :=
                    { job := "odoo-deploy-" ++ jsSplitOwner fullName
                      repoOwner := jsSplitOwner fullName
                      repoName := jsSplitName fullName
                      branch := jsReplaceFirst refStr "refs/heads/"
                      userId := jsSplitOwner fullName
                      commitSha := some commitSha }
                  if jenkinsOk then ⟨200, "Webhook processed", [t], store⟩
                  else ⟨500, "Internal error", [t], store⟩
                else ⟨401, "Invalid signature", [], store⟩
              | none => ⟨404, "Repository not registered", [], store⟩
            | _ => ⟨404, "Repository not registered", [], store⟩
        | _ => ⟨500, "Internal error", [], store⟩
  else ⟨200, "Event ignored", [], store⟩

/-- An axios/octokit error object: a message, and `error.response`
(status and data) when the remote answered at all. -/
structure JsError where
  message : String
  resp : Option (Nat × String)

/-- The HTTP status the registrar's catch block responds with for a given
error (`error.response.status` when present, else 500). -/
def errStatus (e : JsError) : Nat :=
  match e.resp with
  | some (s, _) => s
  | none => 500

/-- The `error` field of the registrar's catch-block response body. -/
def errMsg (e : JsError) : String :=
  match e.resp with
  | some _ => e.message
  | none => "Internal server error"

/-- Outcome of the `octokit.repos.createWebhook` call: the created
webhook's id and echoed config URL, or a thrown error. -/
inductive GhResult where
  | ok : Nat → String → GhResult
  | err : JsError → GhResult

/-- Outcome of the axios GET probing whether the Jenkins job exists
(inside `ensureJenkinsJobExists`). -/
inductive JobCheck where
  | ok : JobCheck
  | err : JsError → JobCheck

/-- Outcome of the axios POST that triggers a Jenkins build. -/
inductive BuildCall where
  | ok : BuildCall
  | err : JsError → BuildCall

/-- External side effects the registrar can issue, in order. -/
inductive Effect where
  | createWebhook : String → String → String → String → Effect
  | jobCheck : String → Effect
  | triggerBuild : BuildTrigger → Effect

/-- The body of a `POST /add-repo` request, restricted to the
string-or-absent field values the claims exercise. -/
structure AddRepoRequest where
  repo_owner : Option String
  repo_name : Option String
  branch : Option String
  user_id : Option String

/-- The `data` object of a successful `POST /add-repo` response. -/
structure AddRepoData where
  webhook_id : Nat
  webhook_url : String
  jenkins_job : String
  repository : String
  branch : String

/-- Outcome of one run of the registrar: HTTP status, the secret store
afterwards, the external calls issued in order, the `error` field of an
error response, and the `data` object of a success response. -/
structure AddRepoResult where
  status : Nat
  store : Store
  effects : List Effect
  error : Option String
  data : Option AddRepoData

/-- The `POST /add-repo` handler (`src/ci-cd.js`, lines 28-120).
`secret` is the value `crypto.randomBytes(32).toString('hex')` produced;
`gh`, `check` and `build` are the outcomes of the three external calls.
`ensureJenkinsJobExists` swallows a 404 probe error and rethrows any
other. -/
def addRepo (store : Store) (webhookBaseUrl secret : String)
    (gh : GhResult) (check : JobCheck) (build : BuildCall)
    (req : AddRepoRequest) : AddRepoResult :=
  if isFalsy req.repo_owner || isFalsy req.repo_name ||
      isFalsy req.branch || isFalsy req.user_id then
    ⟨400, store, [],
     some "Missing required fields: repo_owner, repo_name, branch, user_id", none⟩
  else
    let owner := req.repo_owner.getD ""
    let name := req.repo_name.getD ""
    let branch := req.branch.getD ""
    let userId := req.user_id.getD ""
    let key := owner ++ "/" ++ name
    let whUrl := webhookBaseUrl ++ "/webhook/github"
    match gh with
    | GhResult.err e =>
      ⟨errStatus e, store, [Effect.createWebhook owner name whUrl secret],
       some (errMsg e), none⟩
    | GhResult.ok whId ghUrl =>
      let store2 := mapSet store key secret
      let jobName := "odoo-deploy-" ++ userId
      let preEff := [Effect.createWebhook owner name whUrl secret, Effect.jobCheck jobName]
      let afterCheck : AddRepoResult :=
        let t : BuildTrigger :=
          { job := jobName, repoOwner := owner, repoName := JsVal.jval (Json.str name)
            branch := branch, userId := userId, commitSha := none }
        match build with
        | BuildCall.err e =>
          ⟨errStatus e, store2, preEff ++ [Effect.triggerBuild t], some (errMsg e), none⟩
        | BuildCall.ok =>
          ⟨200, store2, preEff ++ [Effect.triggerBuild t], none,
           some ⟨whId, ghUrl, jobName, key, branch⟩⟩
      match check with
      | JobCheck.ok => afterCheck
      | JobCheck.err e =>
        match e.resp with
        | some (s, _) =>
          if s = 404 then afterCheck
          else ⟨errStatus e, store2, preEff, some (errMsg e), none⟩
        | none => ⟨errStatus e, store2, preEff, some (errMsg e), none⟩

/-- Whether `ensureJenkinsJobExists` returns normally for this probe
outcome (it swallows exactly the errors carrying a 404 response). -/
def jobCheckProceeds : JobCheck → Bool
  | JobCheck.ok => true
  | JobCheck.err e =>
    match e.resp with
    | some (s, _) => s = 404
    | none => false

/-- Branch derivation as the specification words it: strip the prefix
`refs/heads/` from the ref, leaving refs without that prefix unchanged.
Stated for comparison with the code's `jsReplaceFirst`. -/
def specStripBranch (r : String) : String :=
  if List.isPrefixOf "refs/heads/".data r.data then
    String.mk (r.data.drop "refs/heads/".data.length)
  else r

/-- A concrete stand-in for the HMAC-SHA256 hex primitive, used to
instantiate witnesses and counterexamples.  It is injective in the
message for a fixed secret and keyed on the secret, the two properties
the collision resistance of HMAC-SHA256 provides for the concrete
distinct inputs compared below. -/
def demoHm (secret msg : String) : String := secret ++ ":" ++ msg

/-- A GitHub push delivery body exactly as received on the wire: valid
JSON, with one space of insignificant whitespace after the opening
brace. -/
def cexRawBody : String :=
  "\x7b \"ref\":\"refs/heads/main\",\"after\":\"abc123\",\"repository\":\x7b\"full_name\":\"acme/widget\"\x7d\x7d"

/-- The value `express.json()` parses `cexRawBody` into. -/
def cexBody : Json :=
  Json.obj [("ref", Json.str "refs/heads/main"), ("after", Json.str "abc123"),
            ("repository", Json.obj [("full_name", Json.str "acme/widget")])]

/-- A secret store holding the secret `"s0"` for `acme/widget`. -/
def cexStore : Store := [("acme/widget", "s0")]

/-- A push request for `cexRawBody` whose signature header is computed
over the exact raw body bytes, as the GitHub webhook contract demands. -/
def cexRawSigReq : GithubRequest :=
  { signature := some ("sha256=" ++ demoHm "s0" cexRawBody)
    event := some "push", body := cexBody, rawBody := cexRawBody }

/-- A push body whose ref contains `refs/heads/` away from the start. -/
def cexRefBody : Json :=
  Json.obj [("ref", Json.str "z-refs/heads/main"), ("after", Json.str "c1"),
            ("repository", Json.obj [("full_name", Json.str "acme/widget")])]

/-- A push request for `cexRefBody` carrying the signature the receiver
accepts (computed over the re-serialized body with the stored secret). -/
def cexRefReq : GithubRequest :=
  { signature := some ("sha256=" ++ demoHm "s0" (Json.stringify cexRefBody))
    event := some "push", body := cexRefBody, rawBody := Json.stringify cexRefBody }

/-- Property access on a non-null JSON value never throws: if one access
on `b` succeeded, any other access on `b` yields a value as well. -/
theorem jsGet_total {b : Json} {k : String} {v : JsVal} (k' : String)
    (h : jsGet (JsVal.jval b) k = some v) : ∃ w, jsGet (JsVal.jval b) k' = some w := by
  cases b <;> simp [jsGet] at h ⊢
  cases lookupObj _ k' <;> simp

/-- `Map.get` after `Map.set` of the same key returns the new value. -/
theorem mapGet_mapSet_self (m : Store) (k v : String) :
    mapGet (mapSet m k v) k = some v := by
  induction m with
  | nil => simp [mapGet, mapSet]
  | cons hd tl ih =>
    obtain ⟨k', v'⟩ := hd
    by_cases hk : k' = k <;> simp [mapGet, mapSet, hk, ih]

/-- Splitting a separator-free chunk yields that single chunk. -/
theorem splitChar_not_mem {c : Char} {l : List Char} (h : c ∉ l) :
    splitChar c l = [l] := by
  induction l with
  | nil => rfl
  | cons x xs ih =>
    simp only [List.mem_cons, not_or] at h
    have hxc : ¬ x = c := fun hh => h.1 hh.symm
    simp [splitChar, hxc, ih h.2]

/-- Splitting at the first separator occurrence splits off the leading
chunk. -/
theorem splitChar_append {c : Char} {l1 : List Char} (l2 : List Char) (h : c ∉ l1) :
    splitChar c (l1 ++ c :: l2) = l1 :: splitChar c l2 := by
  induction l1 with
  | nil => simp [splitChar]
  | cons x xs ih =>
    simp only [List.mem_cons, not_or] at h
    have hxc : ¬ x = c := fun hh => h.1 hh.symm
    have hrec := ih h.2
    simp only [List.cons_append, splitChar, List.append_eq, hxc, if_false, hrec]

/-- The destructured owner of a well-formed `"owner/name"` full name. -/
theorem jsSplitOwner_eq {owner name : String} (h : '/' ∉ owner.data) :
    jsSplitOwner (owner ++ "/" ++ name) = owner := by
  have hd : (owner ++ "/" ++ name).data = owner.data ++ '/' :: name.data := by
    simp [String.data_append]
  rw [jsSplitOwner, hd, splitChar_append _ h]
  cases owner
  rfl

/-- The destructured name of a well-formed `"owner/name"` full name. -/
theorem jsSplitName_eq {owner name : String} (ho : '/' ∉ owner.data)
    (hn : '/' ∉ name.data) :
    jsSplitName (owner ++ "/" ++ name) = JsVal.jval (Json.str name) := by
  have hd : (owner ++ "/" ++ name).data = owner.data ++ '/' :: name.data := by
    simp [String.data_append]
  rw [jsSplitName, hd, splitChar_append _ ho, splitChar_not_mem hn]

/-- Prefixing both sides of a string inequality preserves it. -/
theorem string_append_ne {p b c : String} (h : b ≠ c) : p ++ b ≠ p ++ c := by
  intro he
  apply h
  have hd : p.data ++ b.data = p.data ++ c.data := by
    rw [← String.data_append, ← String.data_append, he]
  cases b with
  | mk bl =>
    cases c with
    | mk cl =>
      simp only at hd ⊢
      exact congrArg String.mk (List.append_cancel_left hd)

/-- Full characterization of the webhook receiver on a push event whose
well-formed payload names a registered repository: the request is
dispatched to Jenkins exactly when the supplied signature equals
`"sha256=" ++ hm secret (JSON.stringify body)`, and any other signature
value is answered with 401 and no trigger. -/
theorem githubWebhook_push_characterization
    (store : Store) (hm : String → String → String) (jenkinsOk : Bool)
    (req : GithubRequest) (repoV : JsVal) (fullName refStr secret : String)
    (hev : req.event = some "push")
    (hrepo : jsGet (JsVal.jval req.body) "repository" = some repoV)
    (hfull : jsGet repoV "full_name" = some (JsVal.jval (Json.str fullName)))
    (href : jsGet (JsVal.jval req.body) "ref" = some (JsVal.jval (Json.str refStr)))
    (hsec : mapGet store fullName = some secret)
    (hne : secret ≠ "") :
    (req.signature = some ("sha256=" ++ hm secret (Json.stringify req.body)) →
      ∃ sha, jsGet (JsVal.jval req.body) "after" = some sha ∧
        githubWebhook store hm jenkinsOk req =
          ⟨if jenkinsOk then 200 else 500,
           if jenkinsOk then "Webhook processed" else "Internal error",
           [⟨"odoo-deploy-" ++ jsSplitOwner fullName, jsSplitOwner fullName,
             jsSplitName fullName, jsReplaceFirst refStr "refs/heads/",
             jsSplitOwner fullName, some sha⟩], store⟩)
    ∧ (req.signature ≠ some ("sha256=" ++ hm secret (Json.stringify req.body)) →
        githubWebhook store hm jenkinsOk req = ⟨401, "Invalid signature", [], store⟩) := by
  obtain ⟨sha, hafter⟩ := jsGet_total "after" hrepo
  constructor
  · intro hsig
    refine ⟨sha, hafter, ?_⟩
    cases jenkinsOk <;>
      simp [githubWebhook, hev, hrepo, hfull, href, hafter, hsec, hne, hsig]
  · intro hsig
    simp [githubWebhook, hev, hrepo, hfull, href, hafter, hsec, hne, hsig]

/-- A successful registration (`createWebhook` ok, job probe ok, initial
build ok) responds 200, stores the generated secret under
`"owner/name"` by `Map.set`, and issues exactly the three external
calls. -/
theorem addRepo_success_result (store : Store)
    (baseUrl secret owner name branch userId : String) (whId : Nat) (ghUrl : String)
    (hOwner : owner ≠ "") (hName : name ≠ "") (hBr : branch ≠ "") (hUid : userId ≠ "") :
    addRepo store baseUrl secret (GhResult.ok whId ghUrl) JobCheck.ok BuildCall.ok
        ⟨some owner, some name, some branch, some userId⟩ =
      ⟨200, mapSet store (owner ++ "/" ++ name) secret,
       [Effect.createWebhook owner name (baseUrl ++ "/webhook/github") secret,
        Effect.jobCheck ("odoo-deploy-" ++ userId),
        Effect.triggerBuild ⟨"odoo-deploy-" ++ userId, owner, JsVal.jval (Json.str name),
          branch, userId, none⟩],
       none,
       some ⟨whId, ghUrl, "odoo-deploy-" ++ userId, owner ++ "/" ++ name, branch⟩⟩ := by
  simp [addRepo, isFalsy, hOwner, hName, hBr, hUid]

/-- C8: a request whose `x-github-event` header is anything other than
`push` is answered 200 "Event ignored" with no trigger and an unchanged
store, and the outcome does not depend on the signature header or the
body (no signature check is performed). -/
theorem non_push_event_ignored (store : Store) (hm : String → String → String)
    (jenkinsOk : Bool) (req : GithubRequest)
    (h : req.event ≠ some "push") :
    githubWebhook store hm jenkinsOk req = ⟨200, "Event ignored", [], store⟩ ∧
    ∀ sig b, githubWebhook store hm jenkinsOk
        { req with signature := sig, body := b } = ⟨200, "Event ignored", [], store⟩ := by
  refine ⟨by simp [githubWebhook, h], fun sig b => by simp [githubWebhook, h]⟩

/-- Closed instance of `non_push_event_ignored` at a concrete request. -/
theorem non_push_event_ignored_witness :
    githubWebhook cexStore demoHm true
        { signature := some "sha256=zz", event := some "ping",
          body := Json.obj [], rawBody := "\x7b\x7d" } =
      ⟨200, "Event ignored", [], cexStore⟩ :=
  (non_push_event_ignored cexStore demoHm true
    { signature := some "sha256=zz", event := some "ping",
      body := Json.obj [], rawBody := "\x7b\x7d" } (by decide)).1

/-- C7: a registration request lacking any of the four required fields is
answered 400 with the missing-field error, with no store mutation and no
external call. -/
theorem addRepo_missing_field_400_no_effects (store : Store)
    (baseUrl secret : String) (gh : GhResult) (check : JobCheck) (build : BuildCall)
    (req : AddRepoRequest)
    (h : req.repo_owner = none ∨ req.repo_name = none ∨
         req.branch = none ∨ req.user_id = none) :
    addRepo store baseUrl secret gh check build req =
      ⟨400, store, [],
       some "Missing required fields: repo_owner, repo_name, branch, user_id", none⟩ := by
  rcases h with h | h | h | h <;> simp [addRepo, isFalsy, h]

/-- Closed instance of `addRepo_missing_field_400_no_effects`. -/
theorem addRepo_missing_field_400_no_effects_witness :
    addRepo [] "http://h" "s1" (GhResult.ok 1 "u") JobCheck.ok BuildCall.ok
        ⟨some "acme", none, some "main", some "u123"⟩ =
      ⟨400, [], [],
       some "Missing required fields: repo_owner, repo_name, branch, user_id", none⟩ :=
  addRepo_missing_field_400_no_effects [] "http://h" "s1" (GhResult.ok 1 "u")
    JobCheck.ok BuildCall.ok ⟨some "acme", none, some "main", some "u123"⟩
    (Or.inr (Or.inl rfl))

/-- C10: a registration request in which a required field is present but
equal to the empty string is rejected exactly like an absent field:
400, the same missing-field error, no store mutation, no external call
(`!field` is true for the empty string). -/
theorem addRepo_empty_field_400_no_effects (store : Store)
    (baseUrl secret : String) (gh : GhResult) (check : JobCheck) (build : BuildCall)
    (req : AddRepoRequest)
    (h : req.repo_owner = some "" ∨ req.repo_name = some "" ∨
         req.branch = some "" ∨ req.user_id = some "") :
    addRepo store baseUrl secret gh check build req =
      ⟨400, store, [],
       some "Missing required fields: repo_owner, repo_name, branch, user_id", none⟩ := by
  rcases h with h | h | h | h <;> simp [addRepo, isFalsy, h]

/-- Closed instance of `addRepo_empty_field_400_no_effects`. -/
theorem addRepo_empty_field_400_no_effects_witness :
    addRepo [] "http://h" "s1" (GhResult.ok 1 "u") JobCheck.ok BuildCall.ok
        ⟨some "acme", some "widget", some "", some "u123"⟩ =
      ⟨400, [], [],
       some "Missing required fields: repo_owner, repo_name, branch, user_id", none⟩ :=
  addRepo_empty_field_400_no_effects [] "http://h" "s1" (GhResult.ok 1 "u")
    JobCheck.ok BuildCall.ok ⟨some "acme", some "widget", some "", some "u123"⟩
    (Or.inr (Or.inr (Or.inl rfl)))

/-- C4: a push event for a repository full name with no secret-store
entry is answered 404 "Repository not registered" with no trigger, and
the outcome is the same whatever signature header is supplied — no
verification is attempted. -/
theorem unregistered_repo_404_no_verification (store : Store)
    (hm : String → String → String) (jenkinsOk : Bool) (req : GithubRequest)
    (repoV : JsVal) (fullName refStr : String)
    (hev : req.event = some "push")
    (hrepo : jsGet (JsVal.jval req.body) "repository" = some repoV)
    (hfull : jsGet repoV "full_name" = some (JsVal.jval (Json.str fullName)))
    (href : jsGet (JsVal.jval req.body) "ref" = some (JsVal.jval (Json.str refStr)))
    (hnone : mapGet store fullName = none) :
    githubWebhook store hm jenkinsOk req = ⟨404, "Repository not registered", [], store⟩ ∧
    ∀ sig, githubWebhook store hm jenkinsOk { req with signature := sig } =
      ⟨404, "Repository not registered", [], store⟩ := by
  obtain ⟨sha, hafter⟩ := jsGet_total "after" hrepo
  refine ⟨?_, fun sig => ?_⟩ <;>
    simp [githubWebhook, hev, hrepo, hfull, href, hafter, hnone]

/-- Closed instance of `unregistered_repo_404_no_verification`: the empty
store rejects a validly signed push to `acme/widget`. -/
theorem unregistered_repo_404_no_verification_witness :
    githubWebhook [] demoHm true cexRawSigReq =
      ⟨404, "Repository not registered", [], []⟩ :=
  (unregistered_repo_404_no_verification [] demoHm true cexRawSigReq
    (JsVal.jval (Json.obj [("full_name", Json.str "acme/widget")]))
    "acme/widget" "refs/heads/main" rfl rfl rfl rfl rfl).1

/-- C3: in every run of the webhook receiver, a Jenkins build trigger is
issued only for a push event whose repository full name has a non-empty
secret-store entry and whose supplied signature equals the recomputed
digest exactly. -/
theorem webhook_trigger_only_with_secret_and_match (store : Store)
    (hm : String → String → String) (jenkinsOk : Bool) (req : GithubRequest)
    (h : (githubWebhook store hm jenkinsOk req).triggers ≠ []) :
    req.event = some "push" ∧
    ∃ repoV fullName secret,
      jsGet (JsVal.jval req.body) "repository" = some repoV ∧
      jsGet repoV "full_name" = some (JsVal.jval (Json.str fullName)) ∧
      mapGet store fullName = some secret ∧ secret ≠ "" ∧
      req.signature = some ("sha256=" ++ hm secret (Json.stringify req.body)) := by
  by_cases hev : req.event = some "push"
  case neg => rw [githubWebhook, if_neg hev] at h; simp at h
  case pos =>
  refine ⟨hev, ?_⟩
  rw [githubWebhook, if_pos hev] at h
  cases hrepo : jsGet (JsVal.jval req.body) "repository" with
  | none => rw [hrepo] at h; simp at h
  | some repoV =>
  rw [hrepo] at h
  simp only [] at h
  cases hfull : jsGet repoV "full_name" with
  | none => rw [hfull] at h; simp at h
  | some fullNameV =>
  rw [hfull] at h
  simp only [] at h
  cases href : jsGet (JsVal.jval req.body) "ref" with
  | none => rw [href] at h; simp at h
  | some refV =>
  rw [href] at h
  cases refV with
  | undef => simp at h
  | jval j =>
  cases j with
  | null => simp at h
  | bool b => simp at h
  | num n => simp at h
  | arr xs => simp at h
  | obj kvs => simp at h
  | str refStr =>
  simp only [] at h
  cases hafter : jsGet (JsVal.jval req.body) "after" with
  | none => rw [hafter] at h; simp at h
  | some sha =>
  rw [hafter] at h
  simp only [] at h
  cases fullNameV with
  | undef => simp at h
  | jval fj =>
  cases fj with
  | null => simp at h
  | bool b => simp at h
  | num n => simp at h
  | arr xs => simp at h
  | obj kvs => simp at h
  | str fullName =>
  simp only [] at h
  cases hsec : mapGet store fullName with
  | none => rw [hsec] at h; simp at h
  | some secret =>
  rw [hsec] at h
  simp only [] at h
  by_cases hne : secret = ""
  case pos => rw [if_pos hne] at h; simp at h
  case neg =>
  rw [if_neg hne] at h
  by_cases hsig : req.signature = some ("sha256=" ++ hm secret (Json.stringify req.body))
  case pos => exact ⟨repoV, fullName, secret, rfl, hfull, hsec, hne, hsig⟩
  case neg => rw [if_neg hsig] at h; simp at h

/-- Closed instance of `webhook_trigger_only_with_secret_and_match` at a
dispatching run. -/
theorem webhook_trigger_only_with_secret_and_match_witness :
    (some "push" : Option String) = some "push" ∧
    ∃ repoV fullName secret,
      jsGet (JsVal.jval cexRefBody) "repository" = some repoV ∧
      jsGet repoV "full_name" = some (JsVal.jval (Json.str fullName)) ∧
      mapGet cexStore fullName = some secret ∧ secret ≠ "" ∧
      cexRefReq.signature = some ("sha256=" ++ demoHm secret (Json.stringify cexRefBody)) :=
  webhook_trigger_only_with_secret_and_match cexStore demoHm true cexRefReq
    (by
      rw [show (githubWebhook cexStore demoHm true cexRefReq).triggers =
        [⟨"odoo-deploy-acme", "acme", JsVal.jval (Json.str "widget"), "z-main", "acme",
          some (JsVal.jval (Json.str "c1"))⟩] from rfl]
      simp)

/-- C9: when webhook creation succeeded and the job probe passed but the
initial build trigger failed, the registrar answers with the error (no
success data), yet the secret stays stored under `"owner/name"` and the
webhook-creation call remains issued — nothing is rolled back. -/
theorem addRepo_no_rollback_on_build_failure (store : Store)
    (baseUrl secret owner name branch userId : String) (whId : Nat) (ghUrl : String)
    (check : JobCheck) (e : JsError)
    (hOwner : owner ≠ "") (hName : name ≠ "") (hBr : branch ≠ "") (hUid : userId ≠ "")
    (hCheck : jobCheckProceeds check = true) :
    (addRepo store baseUrl secret (GhResult.ok whId ghUrl) check (BuildCall.err e)
        ⟨some owner, some name, some branch, some userId⟩).status = errStatus e ∧
    (addRepo store baseUrl secret (GhResult.ok whId ghUrl) check (BuildCall.err e)
        ⟨some owner, some name, some branch, some userId⟩).error = some (errMsg e) ∧
    (addRepo store baseUrl secret (GhResult.ok whId ghUrl) check (BuildCall.err e)
        ⟨some owner, some name, some branch, some userId⟩).data = none ∧
    mapGet (addRepo store baseUrl secret (GhResult.ok whId ghUrl) check (BuildCall.err e)
        ⟨some owner, some name, some branch, some userId⟩).store
      (owner ++ "/" ++ name) = some secret ∧
    Effect.createWebhook owner name (baseUrl ++ "/webhook/github") secret ∈
      (addRepo store baseUrl secret (GhResult.ok whId ghUrl) check (BuildCall.err e)
        ⟨some owner, some name, some branch, some userId⟩).effects := by
  cases check with
  | ok =>
    simp [addRepo, isFalsy, hOwner, hName, hBr, hUid, mapGet_mapSet_self]
  | err e' =>
    cases hresp : e'.resp with
    | none => simp [jobCheckProceeds, hresp] at hCheck
    | some p =>
      obtain ⟨s, d⟩ := p
      rw [jobCheckProceeds, hresp] at hCheck
      simp only [decide_eq_true_eq] at hCheck
      simp [addRepo, isFalsy, hOwner, hName, hBr, hUid, hresp, hCheck,
        mapGet_mapSet_self]

/-- Closed instance of `addRepo_no_rollback_on_build_failure`. -/
theorem addRepo_no_rollback_on_build_failure_witness :
    (addRepo [] "http://h" "s1" (GhResult.ok 1 "u") JobCheck.ok
        (BuildCall.err ⟨"boom", none⟩)
        ⟨some "acme", some "widget", some "main", some "u123"⟩).status =
      errStatus ⟨"boom", none⟩ ∧
    (addRepo [] "http://h" "s1" (GhResult.ok 1 "u") JobCheck.ok
        (BuildCall.err ⟨"boom", none⟩)
        ⟨some "acme", some "widget", some "main", some "u123"⟩).error =
      some (errMsg ⟨"boom", none⟩) ∧
    (addRepo [] "http://h" "s1" (GhResult.ok 1 "u") JobCheck.ok
        (BuildCall.err ⟨"boom", none⟩)
        ⟨some "acme", some "widget", some "main", some "u123"⟩).data = none ∧
    mapGet (addRepo [] "http://h" "s1" (GhResult.ok 1 "u") JobCheck.ok
        (BuildCall.err ⟨"boom", none⟩)
        ⟨some "acme", some "widget", some "main", some "u123"⟩).store
      ("acme" ++ "/" ++ "widget") = some "s1" ∧
    Effect.createWebhook "acme" "widget" ("http://h" ++ "/webhook/github") "s1" ∈
      (addRepo [] "http://h" "s1" (GhResult.ok 1 "u") JobCheck.ok
        (BuildCall.err ⟨"boom", none⟩)
        ⟨some "acme", some "widget", some "main", some "u123"⟩).effects :=
  addRepo_no_rollback_on_build_failure [] "http://h" "s1" "acme" "widget" "main" "u123"
    1 "u" JobCheck.ok ⟨"boom", none⟩ (by decide) (by decide) (by decide) (by decide) rfl

/-- C5: a successful registration stores the generated secret under
exactly `"owner/name"`; registering the same repository again overwrites
that entry unconditionally, after which only a signature computed with
the new secret verifies and one computed with the old secret is rejected
with 401. -/
theorem addRepo_overwrites_secret_key (store : Store)
    (baseUrl s1 s2 owner name branch userId : String)
    (id1 id2 : Nat) (u1 u2 : String)
    (hOwner : owner ≠ "") (hName : name ≠ "") (hBr : branch ≠ "") (hUid : userId ≠ "")
    (hs2 : s2 ≠ "") :
    mapGet (addRepo store baseUrl s1 (GhResult.ok id1 u1) JobCheck.ok BuildCall.ok
        ⟨some owner, some name, some branch, some userId⟩).store
      (owner ++ "/" ++ name) = some s1
    ∧
    (addRepo (addRepo store baseUrl s1 (GhResult.ok id1 u1) JobCheck.ok BuildCall.ok
          ⟨some owner, some name, some branch, some userId⟩).store
        baseUrl s2 (GhResult.ok id2 u2) JobCheck.ok BuildCall.ok
        ⟨some owner, some name, some branch, some userId⟩).store =
      mapSet (addRepo store baseUrl s1 (GhResult.ok id1 u1) JobCheck.ok BuildCall.ok
          ⟨some owner, some name, some branch, some userId⟩).store
        (owner ++ "/" ++ name) s2
    ∧
    mapGet (addRepo (addRepo store baseUrl s1 (GhResult.ok id1 u1) JobCheck.ok BuildCall.ok
          ⟨some owner, some name, some branch, some userId⟩).store
        baseUrl s2 (GhResult.ok id2 u2) JobCheck.ok BuildCall.ok
        ⟨some owner, some name, some branch, some userId⟩).store
      (owner ++ "/" ++ name) = some s2
    ∧
    ∀ (hm : String → String → String) (jenkinsOk : Bool) (wreq : GithubRequest)
      (repoV : JsVal) (refStr : String),
      wreq.event = some "push" →
      jsGet (JsVal.jval wreq.body) "repository" = some repoV →
      jsGet repoV "full_name" = some (JsVal.jval (Json.str (owner ++ "/" ++ name))) →
      jsGet (JsVal.jval wreq.body) "ref" = some (JsVal.jval (Json.str refStr)) →
      (((githubWebhook (addRepo (addRepo store baseUrl s1 (GhResult.ok id1 u1) JobCheck.ok
            BuildCall.ok ⟨some owner, some name, some branch, some userId⟩).store
          baseUrl s2 (GhResult.ok id2 u2) JobCheck.ok BuildCall.ok
          ⟨some owner, some name, some branch, some userId⟩).store
          hm jenkinsOk wreq).triggers ≠ [] ↔
        wreq.signature = some ("sha256=" ++ hm s2 (Json.stringify wreq.body)))
      ∧ (hm s1 (Json.stringify wreq.body) ≠ hm s2 (Json.stringify wreq.body) →
         wreq.signature = some ("sha256=" ++ hm s1 (Json.stringify wreq.body)) →
         (githubWebhook (addRepo (addRepo store baseUrl s1 (GhResult.ok id1 u1) JobCheck.ok
              BuildCall.ok ⟨some owner, some name, some branch, some userId⟩).store
            baseUrl s2 (GhResult.ok id2 u2) JobCheck.ok BuildCall.ok
            ⟨some owner, some name, some branch, some userId⟩).store
            hm jenkinsOk wreq).status = 401 ∧
         (githubWebhook (addRepo (addRepo store baseUrl s1 (GhResult.ok id1 u1) JobCheck.ok
              BuildCall.ok ⟨some owner, some name, some branch, some userId⟩).store
            baseUrl s2 (GhResult.ok id2 u2) JobCheck.ok BuildCall.ok
            ⟨some owner, some name, some branch, some userId⟩).store
            hm jenkinsOk wreq).triggers = [])) := by
  have h1 : (addRepo store baseUrl s1 (GhResult.ok id1 u1) JobCheck.ok BuildCall.ok
      ⟨some owner, some name, some branch, some userId⟩).store =
      mapSet store (owner ++ "/" ++ name) s1 := by
    rw [addRepo_success_result store baseUrl s1 owner name branch userId id1 u1
      hOwner hName hBr hUid]
  have h2 : (addRepo (addRepo store baseUrl s1 (GhResult.ok id1 u1) JobCheck.ok BuildCall.ok
        ⟨some owner, some name, some branch, some userId⟩).store
      baseUrl s2 (GhResult.ok id2 u2) JobCheck.ok BuildCall.ok
      ⟨some owner, some name, some branch, some userId⟩).store =
      mapSet (addRepo store baseUrl s1 (GhResult.ok id1 u1) JobCheck.ok BuildCall.ok
        ⟨some owner, some name, some branch, some userId⟩).store
      (owner ++ "/" ++ name) s2 := by
    rw [addRepo_success_result _ baseUrl s2 owner name branch userId id2 u2
      hOwner hName hBr hUid]
  have hsec2 : mapGet (addRepo (addRepo store baseUrl s1 (GhResult.ok id1 u1) JobCheck.ok
        BuildCall.ok ⟨some owner, some name, some branch, some userId⟩).store
      baseUrl s2 (GhResult.ok id2 u2) JobCheck.ok BuildCall.ok
      ⟨some owner, some name, some branch, some userId⟩).store
      (owner ++ "/" ++ name) = some s2 := by
    rw [h2]; exact mapGet_mapSet_self _ _ _
  refine ⟨?_, h2, hsec2, ?_⟩
  · rw [h1]; exact mapGet_mapSet_self _ _ _
  · intro hm jenkinsOk wreq repoV refStr hev hrepo hfull href
    have hc := githubWebhook_push_characterization _ hm jenkinsOk wreq repoV
      (owner ++ "/" ++ name) refStr s2 hev hrepo hfull href hsec2 hs2
    constructor
    · constructor
      · intro ht
        by_contra hsig
        rw [hc.2 hsig] at ht
        simp at ht
      · intro hsig
        obtain ⟨sha, hafter, heq⟩ := hc.1 hsig
        rw [heq]
        simp
    · intro hneq hsig1
      have hnot : wreq.signature ≠
          some ("sha256=" ++ hm s2 (Json.stringify wreq.body)) := by
        rw [hsig1]
        intro hcontra
        exact string_append_ne hneq (Option.some.inj hcontra)
      rw [hc.2 hnot]
      exact ⟨rfl, rfl⟩

/-- Closed instance of `addRepo_overwrites_secret_key`: after registering
`acme/widget` with secret `"aa"` and then with secret `"bb"`, the store
holds `"bb"`, and a push signed with the old `"aa"` digest is rejected
401. -/
theorem addRepo_overwrites_secret_key_witness :
    mapGet (addRepo [] "http://h" "aa" (GhResult.ok 1 "u1") JobCheck.ok BuildCall.ok
        ⟨some "acme", some "widget", some "main", some "u123"⟩).store
      ("acme" ++ "/" ++ "widget") = some "aa" ∧
    (githubWebhook (addRepo (addRepo [] "http://h" "aa" (GhResult.ok 1 "u1") JobCheck.ok
          BuildCall.ok ⟨some "acme", some "widget", some "main", some "u123"⟩).store
        "http://h" "bb" (GhResult.ok 2 "u2") JobCheck.ok BuildCall.ok
        ⟨some "acme", some "widget", some "main", some "u123"⟩).store
        demoHm true
        { signature := some ("sha256=" ++ demoHm "aa" (Json.stringify cexBody)),
          event := some "push", body := cexBody, rawBody := cexRawBody }).status = 401 :=
  have big := addRepo_overwrites_secret_key [] "http://h" "aa" "bb" "acme" "widget"
    "main" "u123" 1 2 "u1" "u2" (by decide) (by decide) (by decide) (by decide) (by decide)
  ⟨big.1,
   ((big.2.2.2 demoHm true
      { signature := some ("sha256=" ++ demoHm "aa" (Json.stringify cexBody)),
        event := some "push", body := cexBody, rawBody := cexRawBody }
      (JsVal.jval (Json.obj [("full_name", Json.str "acme/widget")]))
      "refs/heads/main" rfl rfl rfl rfl).2 (by decide) rfl).1⟩

/-- C1 (amended): for a push event on a repository with a non-empty
stored secret, the receiver dispatches a build if and only if the header
signature equals `"sha256=" ++ hex(HMAC-SHA256(secret, JSON.stringify(parsed
body)))` — the digest over the re-serialized parsed body, not over the raw
received bytes (see the C2 analysis) — and on any other signature value it
responds 401 and triggers no build. -/
theorem webhook_accepts_iff_stringified_signature (store : Store)
    (hm : String → String → String) (jenkinsOk : Bool) (req : GithubRequest)
    (repoV : JsVal) (fullName refStr secret : String)
    (hev : req.event = some "push")
    (hrepo : jsGet (JsVal.jval req.body) "repository" = some repoV)
    (hfull : jsGet repoV "full_name" = some (JsVal.jval (Json.str fullName)))
    (href : jsGet (JsVal.jval req.body) "ref" = some (JsVal.jval (Json.str refStr)))
    (hsec : mapGet store fullName = some secret)
    (hne : secret ≠ "") :
    ((githubWebhook store hm jenkinsOk req).triggers ≠ [] ↔
      req.signature = some ("sha256=" ++ hm secret (Json.stringify req.body)))
    ∧ (req.signature ≠ some ("sha256=" ++ hm secret (Json.stringify req.body)) →
        (githubWebhook store hm jenkinsOk req).status = 401 ∧
        (githubWebhook store hm jenkinsOk req).triggers = []) := by
  have hc := githubWebhook_push_characterization store hm jenkinsOk req repoV
    fullName refStr secret hev hrepo hfull href hsec hne
  constructor
  · constructor
    · intro ht
      by_contra hsig
      rw [hc.2 hsig] at ht
      simp at ht
    · intro hsig
      obtain ⟨sha, hafter, heq⟩ := hc.1 hsig
      rw [heq]
      simp
  · intro hsig
    rw [hc.2 hsig]
    exact ⟨rfl, rfl⟩

/-- Closed instance of `webhook_accepts_iff_stringified_signature` at a
concrete accepted request. -/
theorem webhook_accepts_iff_stringified_signature_witness :
    (((githubWebhook cexStore demoHm true
        { signature := some ("sha256=" ++ demoHm "s0" (Json.stringify cexBody)),
          event := some "push", body := cexBody, rawBody := cexRawBody }).triggers ≠ [] ↔
      GithubRequest.signature
        { signature := some ("sha256=" ++ demoHm "s0" (Json.stringify cexBody)),
          event := some "push", body := cexBody, rawBody := cexRawBody } =
        some ("sha256=" ++ demoHm "s0"
          (Json.stringify (GithubRequest.body
            { signature := some ("sha256=" ++ demoHm "s0" (Json.stringify cexBody)),
              event := some "push", body := cexBody, rawBody := cexRawBody }))))
    ∧ (GithubRequest.signature
        { signature := some ("sha256=" ++ demoHm "s0" (Json.stringify cexBody)),
          event := some "push", body := cexBody, rawBody := cexRawBody } ≠
        some ("sha256=" ++ demoHm "s0"
          (Json.stringify (GithubRequest.body
            { signature := some ("sha256=" ++ demoHm "s0" (Json.stringify cexBody)),
              event := some "push", body := cexBody, rawBody := cexRawBody }))) →
        (githubWebhook cexStore demoHm true
          { signature := some ("sha256=" ++ demoHm "s0" (Json.stringify cexBody)),
            event := some "push", body := cexBody, rawBody := cexRawBody }).status = 401 ∧
        (githubWebhook cexStore demoHm true
          { signature := some ("sha256=" ++ demoHm "s0" (Json.stringify cexBody)),
            event := some "push", body := cexBody, rawBody := cexRawBody }).triggers = [])) :=
  webhook_accepts_iff_stringified_signature cexStore demoHm true
    { signature := some ("sha256=" ++ demoHm "s0" (Json.stringify cexBody)),
      event := some "push", body := cexBody, rawBody := cexRawBody }
    (JsVal.jval (Json.obj [("full_name", Json.str "acme/widget")]))
    "acme/widget" "refs/heads/main" "s0" rfl rfl rfl rfl rfl (by decide)

/-- C1 counterexample: with the stored secret for `acme/widget` and a raw
body containing one space of insignificant whitespace, a push request
whose header signature is exactly `"sha256=" ++ hex-HMAC(secret, raw body
bytes)` — the accepting signature under the claim's reading of "body" as
the received bytes — is rejected with 401 and triggers no build, because
the code digests `JSON.stringify(req.body)` instead. -/
theorem webhook_rejects_rawbody_signature_cex :
    Json.parse cexRawSigReq.rawBody = some cexRawSigReq.body ∧
    cexRawSigReq.event = some "push" ∧
    mapGet cexStore "acme/widget" = some "s0" ∧
    cexRawSigReq.signature = some ("sha256=" ++ demoHm "s0" cexRawSigReq.rawBody) ∧
    (githubWebhook cexStore demoHm true cexRawSigReq).status = 401 ∧
    (githubWebhook cexStore demoHm true cexRawSigReq).triggers = [] :=
  ⟨rfl, rfl, rfl, rfl, rfl, rfl⟩

/-- C2 (code bug): the digest the receiver compares against the header is
computed over `JSON.stringify(req.body)` — a re-serialization of the body
parsed by `express.json()` — and not over the exact raw body bytes
received: the two differ on `cexRawBody` (which carries one space of
insignificant whitespace), the signature computed over the exact raw bytes
is rejected 401 with no trigger, and the signature computed over the
re-serialization is the one accepted. -/
theorem webhook_digest_uses_reserialization_bug :
    Json.parse cexRawBody = some cexBody ∧
    Json.stringify cexBody ≠ cexRawBody ∧
    (githubWebhook cexStore demoHm true cexRawSigReq).status = 401 ∧
    (githubWebhook cexStore demoHm true cexRawSigReq).triggers = [] ∧
    (githubWebhook cexStore demoHm true
      { signature := some ("sha256=" ++ demoHm "s0" (Json.stringify cexBody)),
        event := some "push", body := cexBody, rawBody := cexRawBody }).status = 200 :=
  ⟨rfl, by decide, rfl, rfl, rfl⟩

/-- C6 (amended): for every dispatched push whose repository full name is
`owner ++ "/" ++ name` (owner and name slash-free), the receiver derives
the job name `odoo-deploy-` ++ owner from the repository owner used as
the user identifier and triggers the build with REPO_OWNER = owner,
REPO_NAME = name, BRANCH = the ref with its first occurrence of
`refs/heads/` removed (equal to stripping the prefix whenever
`refs/heads/` occurs only as a prefix), USER_ID = owner and COMMIT_SHA =
the payload's `after` field. -/
theorem webhook_trigger_params_spec (store : Store)
    (hm : String → String → String) (jenkinsOk : Bool) (req : GithubRequest)
    (repoV sha : JsVal) (owner name refStr secret : String)
    (hev : req.event = some "push")
    (hrepo : jsGet (JsVal.jval req.body) "repository" = some repoV)
    (hfull : jsGet repoV "full_name" = some (JsVal.jval (Json.str (owner ++ "/" ++ name))))
    (href : jsGet (JsVal.jval req.body) "ref" = some (JsVal.jval (Json.str refStr)))
    (hafter : jsGet (JsVal.jval req.body) "after" = some sha)
    (hsec : mapGet store (owner ++ "/" ++ name) = some secret)
    (hne : secret ≠ "")
    (ho : '/' ∉ owner.data) (hn : '/' ∉ name.data)
    (hsig : req.signature = some ("sha256=" ++ hm secret (Json.stringify req.body))) :
    (githubWebhook store hm jenkinsOk req).triggers =
      [⟨"odoo-deploy-" ++ owner, owner, JsVal.jval (Json.str name),
        jsReplaceFirst refStr "refs/heads/", owner, some sha⟩] := by
  have hc := githubWebhook_push_characterization store hm jenkinsOk req repoV
    (owner ++ "/" ++ name) refStr secret hev hrepo hfull href hsec hne
  obtain ⟨sha', hafter', heq⟩ := hc.1 hsig
  rw [hafter] at hafter'
  obtain rfl : sha = sha' := Option.some.inj hafter'
  rw [heq]
  simp [jsSplitOwner_eq ho, jsSplitName_eq ho hn]

/-- Closed instance of `webhook_trigger_params_spec` at a concrete
dispatched request. -/
theorem webhook_trigger_params_spec_witness :
    (githubWebhook cexStore demoHm true cexRefReq).triggers =
      [⟨"odoo-deploy-" ++ "acme", "acme", JsVal.jval (Json.str "widget"),
        jsReplaceFirst "z-refs/heads/main" "refs/heads/", "acme",
        some (JsVal.jval (Json.str "c1"))⟩] :=
  webhook_trigger_params_spec cexStore demoHm true cexRefReq
    (JsVal.jval (Json.obj [("full_name", Json.str "acme/widget")]))
    (JsVal.jval (Json.str "c1")) "acme" "widget" "z-refs/heads/main" "s0"
    rfl rfl rfl rfl rfl rfl (by decide) (by decide) (by decide) rfl

/-- C6 counterexample: a dispatched push whose ref is
`z-refs/heads/main` — where `refs/heads/` occurs but not as a prefix —
is triggered with BRANCH `z-main`, while stripping the `refs/heads/`
prefix as the claim words it would leave `z-refs/heads/main`
unchanged. -/
theorem webhook_branch_not_prefix_strip_cex :
    (githubWebhook cexStore demoHm true cexRefReq).triggers =
      [⟨"odoo-deploy-acme", "acme", JsVal.jval (Json.str "widget"), "z-main", "acme",
        some (JsVal.jval (Json.str "c1"))⟩] ∧
    specStripBranch "z-refs/heads/main" = "z-refs/heads/main" ∧
    "z-main" ≠ "z-refs/heads/main" :=
  ⟨rfl, by decide, by decide⟩
